import Mathlib

/-!
Shallow embedding of the dread-level backend (`server.py`, `models.py`).

The Counter Store (`area_death_counts` table) and Rank Store (`dread_levels`
table) are modelled as lists of records, in database row order.  The
`death_count` column is a SQL `Float`; it is modelled as an exact rational,
matching the specification's reading of the value as a real number.
Timestamps (`last_updated`, `time.time()`) are modelled as rationals.
Python's built-in `round` (round-half-to-even) is modelled by `pyRound`.
-/

namespace Arid

/-- Python's built-in `round` on a real value: round to the nearest integer,
with exact halves going to the even neighbour (banker's rounding). -/
def pyRound (q : ℚ) : ℤ :=
  if q - ⌊q⌋ < 1/2 then ⌊q⌋
  else if 1/2 < q - ⌊q⌋ then ⌊q⌋ + 1
  else if ⌊q⌋ % 2 = 0 then ⌊q⌋ else ⌊q⌋ + 1

/-- A row of the `area_death_counts` table (`models.AreaDeathCount`). -/
structure AreaDeathCount where
  area_id : String
  death_count : ℚ
  last_updated : ℚ
deriving DecidableEq

/-- A row of the `dread_levels` table (`models.DreadLevel`). -/
structure DreadLevel where
  area_id : String
  level : ℤ
  last_updated : ℚ
deriving DecidableEq

/-- Configuration constant `DEATH_COUNT_DECAY_FACTOR = 0.95`. -/
def DEATH_COUNT_DECAY_FACTOR : ℚ := 19/20

/-- Configuration constant `DECAY_INTERVAL_SECONDS = 3600`. -/
def DECAY_INTERVAL_SECONDS : ℚ := 3600

/-- Configuration constant `DREAD_CALCULATION_INTERVAL_SECONDS = 10`. -/
def DREAD_CALCULATION_INTERVAL_SECONDS : ℚ := 10

/-- Configuration constant `MIN_DEATHS_FOR_DREAD = 1`. -/
def MIN_DEATHS_FOR_DREAD : ℚ := 1

/-- The `eligible_areas` list comprehension in
`calculate_and_assign_dread_levels`: keep the `(area_id, death_count)` pairs
of the rows whose `death_count` is at least `MIN_DEATHS_FOR_DREAD`. -/
def eligible_areas (counters : List AreaDeathCount) : List (String × ℚ) :=
  (counters.filter (fun a => MIN_DEATHS_FOR_DREAD ≤ a.death_count)).map
    (fun a => (a.area_id, a.death_count))

/-- The comparison used by `sorted(eligible_areas, key=lambda x: x[1],
reverse=True)`: descending by death count. -/
def deathsGE (a b : String × ℚ) : Prop := b.2 ≤ a.2

instance : DecidableRel deathsGE :=
  fun a b => inferInstanceAs (Decidable (b.2 ≤ a.2))

instance : IsTotal (String × ℚ) deathsGE :=
  ⟨fun a b => le_total b.2 a.2⟩

instance : IsTrans (String × ℚ) deathsGE :=
  ⟨fun _ _ _ h1 h2 => le_trans h2 h1⟩

/-- The list `sorted_areas_by_deaths = sorted(eligible_areas, key=lambda
x: x[1], reverse=True)`: a stable sort, descending by death count. -/
def sorted_areas_by_deaths (elig : List (String × ℚ)) : List (String × ℚ) :=
  List.insertionSort deathsGE elig

/-- The bulk reset `db.query(DreadLevel).update(...)` with level 0: set every existing
rank row's level to 0, leaving `last_updated` and row order untouched. -/
def reset_all_dread_levels (db : List DreadLevel) : List DreadLevel :=
  db.map (fun r => { r with level := 0 })

/-- The helper `update_or_create_dread_level(db, area_id, level)`: update the first row
with this `area_id` (setting its `level` and `last_updated = now`), or append
a fresh row when none exists (its `last_updated` column defaults to now). -/
def update_or_create_dread_level (now : ℚ) (area : String) (lvl : ℤ) :
    List DreadLevel → List DreadLevel
  | [] => [⟨area, lvl, now⟩]
  | r :: rs =>
    if r.area_id = area then ⟨r.area_id, lvl, now⟩ :: rs
    else r :: update_or_create_dread_level now area lvl rs

/-- Success path of `calculate_and_assign_dread_levels()`: read the full
Counter Store; when it is empty or no row reaches the eligibility floor,
reset every rank row to level 0; otherwise sort the eligible pairs by death
count descending, reset every rank row to 0, upsert level 2 for the first
area and, when a second exists, level 1 for it. -/
def calculate_and_assign_dread_levels (now : ℚ)
    (counters : List AreaDeathCount) (dread : List DreadLevel) :
    List DreadLevel :=
  if counters = [] then reset_all_dread_levels dread
  else
    let elig := eligible_areas counters
    if elig = [] then reset_all_dread_levels dread
    else
      let s := sorted_areas_by_deaths elig
      let d0 := reset_all_dread_levels dread
      match s with
      | [] => d0
      | top :: rest =>
        let d1 := update_or_create_dread_level now top.1 2 d0
        match rest with
        | [] => d1
        | second :: _ => update_or_create_dread_level now second.1 1 d1

/-- Success path of `decay_death_counts()`: each counter row's value becomes
`round(death_count * DEATH_COUNT_DECAY_FACTOR)`; rows whose new value is
below 1 are deleted, the others get `last_updated = now`.  An empty store is
returned unchanged (the early-return branch). -/
def decay_death_counts (now : ℚ) (counters : List AreaDeathCount) :
    List AreaDeathCount :=
  if counters = [] then counters
  else counters.filterMap (fun a =>
    let newCount : ℚ := (pyRound (a.death_count * DEATH_COUNT_DECAY_FACTOR) : ℤ)
    if newCount < 1 then none
    else some ⟨a.area_id, newCount, now⟩)

/-- The kind of database error hitting an engine pass: either a
`sqlalchemy.exc.IntegrityError` or any other unexpected exception. -/
inductive DbError
  | integrity
  | other
deriving DecidableEq

/-- The call `calculate_and_assign_dread_levels()` with its exception handling: a
fault during the try-body rolls the session back, so the Rank Store is
unchanged; an `IntegrityError` is logged and swallowed (the function returns
normally), any other exception is re-raised to the caller.  The result pairs
the Rank Store after the call with the propagated error, if any. -/
def run_calculate_and_assign (fault : Option DbError) (now : ℚ)
    (counters : List AreaDeathCount) (dread : List DreadLevel) :
    List DreadLevel × Option DbError :=
  match fault with
  | none => (calculate_and_assign_dread_levels now counters dread, none)
  | some DbError.integrity => (dread, none)
  | some DbError.other => (dread, some DbError.other)

/-- The call `decay_death_counts()` with its exception handling, analogous to
`run_calculate_and_assign`: rollback on any fault, `IntegrityError`
swallowed, other exceptions re-raised. -/
def run_decay_death_counts (fault : Option DbError) (now : ℚ)
    (counters : List AreaDeathCount) :
    List AreaDeathCount × Option DbError :=
  match fault with
  | none => (decay_death_counts now counters, none)
  | some DbError.integrity => (counters, none)
  | some DbError.other => (counters, some DbError.other)

/-- An engine pass attempted by the scheduler, in trace order. -/
inductive PassKind
  | decay
  | ranking
deriving DecidableEq

/-- The state owned by `run_periodic_tasks`: the two last-run instants and
the two stores. -/
structure SchedState where
  lastDecay : ℚ
  lastRank : ℚ
  counters : List AreaDeathCount
  ranks : List DreadLevel
deriving DecidableEq

/-- One iteration of the `while True` loop in `run_periodic_tasks`, after
the poll sleep.  `tCheck` is the `time.time()` sample used for the interval
checks and `tAfter` the sample taken when a branch finishes its work.  If
the decay interval has elapsed, run decay then ranking and, when both
succeed, reset both instants to `tAfter`; else if the ranking interval has
elapsed, run ranking alone and on success reset only the ranking instant.
An exception from either engine is caught by the loop's handler: the
iteration ends with the instants unchanged.  The returned list is the trace
of engine passes started, in order. -/
def loop_iteration (st : SchedState) (tCheck tAfter : ℚ)
    (decayFault rankFault : Option DbError) : SchedState × List PassKind :=
  if DECAY_INTERVAL_SECONDS ≤ tCheck - st.lastDecay then
    let dres := run_decay_death_counts decayFault tAfter st.counters
    match dres.2 with
    | some _ => ({ st with counters := dres.1 }, [PassKind.decay])
    | none =>
      let rres := run_calculate_and_assign rankFault tAfter dres.1 st.ranks
      match rres.2 with
      | some _ =>
        ({ st with counters := dres.1, ranks := rres.1 },
         [PassKind.decay, PassKind.ranking])
      | none =>
        ({ lastDecay := tAfter, lastRank := tAfter,
           counters := dres.1, ranks := rres.1 },
         [PassKind.decay, PassKind.ranking])
  else if DREAD_CALCULATION_INTERVAL_SECONDS ≤ tCheck - st.lastRank then
    let rres := run_calculate_and_assign rankFault tAfter st.counters st.ranks
    match rres.2 with
    | some _ => ({ st with ranks := rres.1 }, [PassKind.ranking])
    | none => ({ st with ranks := rres.1, lastRank := tAfter }, [PassKind.ranking])
  else (st, [])

/-- The bootstrap section of `run_periodic_tasks`, before the loop: one
unconditional call of `calculate_and_assign_dread_levels()` and then one of
`decay_death_counts()`, each in its own try-block whose handler logs and
swallows any exception; afterwards both last-run instants are initialized to
the start time `t0`.  The returned list is the trace of passes started. -/
def run_periodic_tasks_init (t0 : ℚ) (rankFault decayFault : Option DbError)
    (counters : List AreaDeathCount) (dread : List DreadLevel) :
    SchedState × List PassKind :=
  let rres := run_calculate_and_assign rankFault t0 counters dread
  let dres := run_decay_death_counts decayFault t0 counters
  ({ lastDecay := t0, lastRank := t0, counters := dres.1, ranks := rres.1 },
   [PassKind.ranking, PassKind.decay])

/-- The `/api/get_dread_level` handler: a missing `area_id` query parameter
yields a 400 error; otherwise the first Rank Store row with this `area_id`
is looked up and its level (0 when the row is absent) is returned with
status 200 as the pair `(area_id, dread_level)`. -/
def get_dread_level (dread : List DreadLevel) (area_id : Option String) :
    ℕ × Option (String × ℤ) :=
  match area_id with
  | none => (400, none)
  | some a =>
    let row := dread.find? (fun r => r.area_id = a)
    let level := match row with
      | some obj => obj.level
      | none => 0
    (200, some (a, level))

/-! ### Lemmas about the Rank Store primitives -/

lemma mem_update_or_create {now : ℚ} {a : String} {lvl : ℤ}
    {db : List DreadLevel} {row : DreadLevel}
    (h : row ∈ update_or_create_dread_level now a lvl db) :
    (row.area_id = a ∧ row.level = lvl) ∨ row ∈ db := by
  induction db with
  | nil =>
    simp only [update_or_create_dread_level, List.mem_singleton] at h
    subst h; exact Or.inl ⟨rfl, rfl⟩
  | cons r rs ih =>
    simp only [update_or_create_dread_level] at h
    by_cases hr : r.area_id = a
    · simp only [if_pos hr, List.mem_cons] at h
      rcases h with h | h
      · subst h; exact Or.inl ⟨hr, rfl⟩
      · exact Or.inr (List.mem_cons_of_mem r h)
    · simp only [if_neg hr, List.mem_cons] at h
      rcases h with h | h
      · exact Or.inr (h ▸ List.mem_cons_self r rs)
      · rcases ih h with h2 | h2
        · exact Or.inl h2
        · exact Or.inr (List.mem_cons_of_mem r h2)

lemma self_mem_update_or_create (now : ℚ) (a : String) (lvl : ℤ)
    (db : List DreadLevel) :
    (⟨a, lvl, now⟩ : DreadLevel) ∈ update_or_create_dread_level now a lvl db := by
  induction db with
  | nil => simp [update_or_create_dread_level]
  | cons r rs ih =>
    simp only [update_or_create_dread_level]
    by_cases hr : r.area_id = a
    · simp [if_pos hr, hr]
    · simp only [if_neg hr, List.mem_cons]
      exact Or.inr ih

lemma mem_update_or_create_of_ne {now : ℚ} {a : String} {lvl : ℤ}
    {db : List DreadLevel} {row : DreadLevel}
    (hrow : row ∈ db) (hne : row.area_id ≠ a) :
    row ∈ update_or_create_dread_level now a lvl db := by
  induction db with
  | nil => cases hrow
  | cons r rs ih =>
    simp only [update_or_create_dread_level]
    rcases List.mem_cons.mp hrow with h | h
    · subst h
      simp [if_neg hne]
    · by_cases hr : r.area_id = a
      · simp only [if_pos hr, List.mem_cons]
        exact Or.inr h
      · simp only [if_neg hr, List.mem_cons]
        exact Or.inr (ih h)

lemma map_area_update_or_create (now : ℚ) (a : String) (lvl : ℤ)
    (db : List DreadLevel) :
    (update_or_create_dread_level now a lvl db).map DreadLevel.area_id =
      if a ∈ db.map DreadLevel.area_id then db.map DreadLevel.area_id
      else db.map DreadLevel.area_id ++ [a] := by
  induction db with
  | nil => simp [update_or_create_dread_level]
  | cons r rs ih =>
    simp only [update_or_create_dread_level]
    by_cases hr : r.area_id = a
    · simp [if_pos hr, hr]
    · rw [if_neg hr]
      by_cases hin : a ∈ rs.map DreadLevel.area_id
      · rw [List.map_cons, ih, if_pos hin, List.map_cons,
          if_pos (List.mem_cons_of_mem _ hin)]
      · have hout : a ∉ r.area_id :: rs.map DreadLevel.area_id := by
          intro hmem
          rcases List.mem_cons.mp hmem with h | h
          · exact hr h.symm
          · exact hin h
        rw [List.map_cons, ih, if_neg hin, List.map_cons, if_neg hout,
          List.cons_append]

lemma nodup_map_area_update_or_create {db : List DreadLevel}
    (h : (db.map DreadLevel.area_id).Nodup) (now : ℚ) (a : String) (lvl : ℤ) :
    ((update_or_create_dread_level now a lvl db).map DreadLevel.area_id).Nodup := by
  rw [map_area_update_or_create]
  by_cases hin : a ∈ db.map DreadLevel.area_id
  · rw [if_pos hin]; exact h
  · rw [if_neg hin]
    exact List.Nodup.append h (List.nodup_singleton a)
      (fun x hx hxa => hin (by simp at hxa; exact hxa ▸ hx))

lemma update_or_create_absorb (t t2 : ℚ) (a : String) (l1 l2 : ℤ)
    (db : List DreadLevel) :
    update_or_create_dread_level t a l1 (update_or_create_dread_level t2 a l2 db) =
      update_or_create_dread_level t a l1 db := by
  induction db with
  | nil => simp [update_or_create_dread_level]
  | cons r rs ih =>
    by_cases hr : r.area_id = a
    · simp [update_or_create_dread_level, if_pos hr]
    · simp [update_or_create_dread_level, if_neg hr, ih]

lemma update_or_create_comm {a b : String} (hne : a ≠ b)
    {db : List DreadLevel} (hmem : a ∈ db.map DreadLevel.area_id)
    (t t2 : ℚ) (l l2 : ℤ) :
    update_or_create_dread_level t a l (update_or_create_dread_level t2 b l2 db) =
      update_or_create_dread_level t2 b l2 (update_or_create_dread_level t a l db) := by
  induction db with
  | nil => simp at hmem
  | cons r rs ih =>
    rw [List.map_cons] at hmem
    by_cases hra : r.area_id = a
    · have hrb : ¬ r.area_id = b := fun h => hne (hra.symm.trans h)
      simp [update_or_create_dread_level, hra, hrb, hne, Ne.symm hne]
    · rcases List.mem_cons.mp hmem with h | h
      · exact absurd h.symm hra
      · by_cases hrb : r.area_id = b
        · simp [update_or_create_dread_level, hra, hrb, Ne.symm hne]
        · simp [update_or_create_dread_level, hra, hrb, ih h]

lemma reset_update_or_create (t : ℚ) (a : String) (l : ℤ) (db : List DreadLevel) :
    reset_all_dread_levels (update_or_create_dread_level t a l db) =
      update_or_create_dread_level t a 0 (reset_all_dread_levels db) := by
  induction db with
  | nil => simp [update_or_create_dread_level, reset_all_dread_levels]
  | cons r rs ih =>
    by_cases hr : r.area_id = a
    · simp [update_or_create_dread_level, reset_all_dread_levels, hr]
    · simp only [update_or_create_dread_level, if_neg hr,
        reset_all_dread_levels, List.map_cons] at ih ⊢
      rw [ih]

lemma reset_reset (db : List DreadLevel) :
    reset_all_dread_levels (reset_all_dread_levels db) = reset_all_dread_levels db := by
  simp [reset_all_dread_levels, List.map_map, Function.comp]

lemma level_of_mem_reset {db : List DreadLevel} {row : DreadLevel}
    (h : row ∈ reset_all_dread_levels db) : row.level = 0 := by
  simp only [reset_all_dread_levels, List.mem_map] at h
  rcases h with ⟨s, _, rfl⟩
  rfl

lemma map_area_reset (db : List DreadLevel) :
    (reset_all_dread_levels db).map DreadLevel.area_id = db.map DreadLevel.area_id := by
  simp [reset_all_dread_levels, List.map_map, Function.comp]

/-- In a Rank Store whose `area_id` column has no duplicates, at most one row
can satisfy a predicate that forces a fixed `area_id`. -/
lemma countP_le_one_of_area {db : List DreadLevel}
    (hdb : (db.map DreadLevel.area_id).Nodup) (p : DreadLevel → Bool) (x : String)
    (hp : ∀ row ∈ db, p row = true → row.area_id = x) :
    db.countP p ≤ 1 := by
  induction db with
  | nil => simp
  | cons r rs ih =>
    rw [List.map_cons, List.nodup_cons] at hdb
    rw [List.countP_cons]
    by_cases hpr : p r = true
    · have hrx : r.area_id = x := hp r (List.mem_cons_self r rs) hpr
      have hzero : rs.countP p = 0 := by
        rw [List.countP_eq_zero]
        intro row hrow hprow
        have : row.area_id = x := hp row (List.mem_cons_of_mem r hrow) hprow
        exact hdb.1 (by rw [hrx, ← this]; exact List.mem_map_of_mem _ hrow)
      simp [hpr, hzero]
    · have : rs.countP p ≤ 1 :=
        ih hdb.2 (fun row hrow => hp row (List.mem_cons_of_mem r hrow))
      simpa [hpr] using this

/-! ### Lemmas about the eligibility filter and the sort -/

lemma sorted_areas_perm (elig : List (String × ℚ)) :
    List.Perm (sorted_areas_by_deaths elig) elig :=
  List.perm_insertionSort deathsGE elig

lemma sorted_areas_sorted (elig : List (String × ℚ)) :
    List.Sorted deathsGE (sorted_areas_by_deaths elig) :=
  List.sorted_insertionSort deathsGE elig

lemma map_fst_eligible (c : List AreaDeathCount) :
    (eligible_areas c).map Prod.fst =
      (c.filter (fun a => MIN_DEATHS_FOR_DREAD ≤ a.death_count)).map
        AreaDeathCount.area_id := by
  simp [eligible_areas, List.map_map, Function.comp]

lemma nodup_fst_eligible {c : List AreaDeathCount}
    (hc : (c.map AreaDeathCount.area_id).Nodup) :
    ((eligible_areas c).map Prod.fst).Nodup := by
  rw [map_fst_eligible]
  exact ((List.filter_sublist c).map AreaDeathCount.area_id).nodup hc

lemma mem_eligible_count {c : List AreaDeathCount} {e : String × ℚ}
    (h : e ∈ eligible_areas c) : MIN_DEATHS_FOR_DREAD ≤ e.2 := by
  simp only [eligible_areas, List.mem_map, List.mem_filter] at h
  rcases h with ⟨a, ⟨_, ha⟩, rfl⟩
  simpa using ha

/-! ### Branch-unfolding lemmas for `calculate_and_assign_dread_levels` -/

lemma eligible_nil : eligible_areas [] = [] := rfl

lemma calc_eq_reset {c : List AreaDeathCount} (h : eligible_areas c = [])
    (now : ℚ) (r : List DreadLevel) :
    calculate_and_assign_dread_levels now c r = reset_all_dread_levels r := by
  by_cases hc : c = []
  · simp [calculate_and_assign_dread_levels, hc]
  · simp [calculate_and_assign_dread_levels, hc, h]

lemma counters_ne_nil_of_sorted_cons {c : List AreaDeathCount}
    {top : String × ℚ} {rest : List (String × ℚ)}
    (h : sorted_areas_by_deaths (eligible_areas c) = top :: rest) :
    c ≠ [] ∧ eligible_areas c ≠ [] := by
  constructor
  · intro hc
    rw [hc] at h
    simp [sorted_areas_by_deaths, List.insertionSort] at h
  · intro he
    rw [he] at h
    simp [sorted_areas_by_deaths, List.insertionSort] at h

lemma calc_eq_one {c : List AreaDeathCount} {top : String × ℚ}
    (h : sorted_areas_by_deaths (eligible_areas c) = [top])
    (now : ℚ) (r : List DreadLevel) :
    calculate_and_assign_dread_levels now c r =
      update_or_create_dread_level now top.1 2 (reset_all_dread_levels r) := by
  obtain ⟨hc, he⟩ := counters_ne_nil_of_sorted_cons h
  simp [calculate_and_assign_dread_levels, hc, he, h]

lemma calc_eq_two {c : List AreaDeathCount} {top second : String × ℚ}
    {rest2 : List (String × ℚ)}
    (h : sorted_areas_by_deaths (eligible_areas c) = top :: second :: rest2)
    (now : ℚ) (r : List DreadLevel) :
    calculate_and_assign_dread_levels now c r =
      update_or_create_dread_level now second.1 1
        (update_or_create_dread_level now top.1 2 (reset_all_dread_levels r)) := by
  obtain ⟨hc, he⟩ := counters_ne_nil_of_sorted_cons h
  simp [calculate_and_assign_dread_levels, hc, he, h]

lemma eligible_eq_nil_of_sorted_nil {c : List AreaDeathCount}
    (hs : sorted_areas_by_deaths (eligible_areas c) = []) :
    eligible_areas c = [] := by
  have hlen : (eligible_areas c).length = 0 := by
    have := (sorted_areas_perm (eligible_areas c)).length_eq
    rw [hs] at this
    exact this.symm
  exact List.length_eq_zero.mp hlen

lemma mem_sorted_iff {c : List AreaDeathCount} {e : String × ℚ} :
    e ∈ sorted_areas_by_deaths (eligible_areas c) ↔ e ∈ eligible_areas c :=
  (sorted_areas_perm (eligible_areas c)).mem_iff

/-- Rows of the Rank Store produced by the two-assignment path: level 1 at
the second area, level 2 at the top area, level 0 elsewhere. -/
lemma mem_calc_two_cases {c : List AreaDeathCount} {top second : String × ℚ}
    {rest2 : List (String × ℚ)}
    (hs : sorted_areas_by_deaths (eligible_areas c) = top :: second :: rest2)
    (now : ℚ) (r : List DreadLevel) {row : DreadLevel}
    (h : row ∈ calculate_and_assign_dread_levels now c r) :
    (row.area_id = second.1 ∧ row.level = 1) ∨
      (row.area_id = top.1 ∧ row.level = 2) ∨ row.level = 0 := by
  rw [calc_eq_two hs] at h
  rcases mem_update_or_create h with h1 | h1
  · exact Or.inl h1
  · rcases mem_update_or_create h1 with h2 | h2
    · exact Or.inr (Or.inl h2)
    · exact Or.inr (Or.inr (level_of_mem_reset h2))

/-- Rows of the Rank Store produced by the single-assignment path. -/
lemma mem_calc_one_cases {c : List AreaDeathCount} {top : String × ℚ}
    (hs : sorted_areas_by_deaths (eligible_areas c) = [top])
    (now : ℚ) (r : List DreadLevel) {row : DreadLevel}
    (h : row ∈ calculate_and_assign_dread_levels now c r) :
    (row.area_id = top.1 ∧ row.level = 2) ∨ row.level = 0 := by
  rw [calc_eq_one hs] at h
  rcases mem_update_or_create h with h1 | h1
  · exact Or.inl h1
  · exact Or.inr (level_of_mem_reset h1)

/-- C1.  After a successful ranking pass on a Counter Store snapshot with
unique area ids and a Rank Store with unique area ids, at most one row has
level 2, at most one row has level 1, these two rows (when present) belong
to distinct areas, every row has level 0, 1 or 2, every level-2 row belongs
to an eligible area of maximal death count, every level-1 row belongs to an
eligible area with at most one eligible area strictly above it (the second
highest), a level-2 row exists whenever an eligible area exists, and a
level-1 row exists whenever a second eligible area exists. -/
theorem dread_ranking_top_two (now : ℚ) (c : List AreaDeathCount)
    (r : List DreadLevel) (hc : (c.map AreaDeathCount.area_id).Nodup)
    (hr : (r.map DreadLevel.area_id).Nodup) :
    (calculate_and_assign_dread_levels now c r).countP
        (fun row => decide (row.level = 2)) ≤ 1 ∧
    (calculate_and_assign_dread_levels now c r).countP
        (fun row => decide (row.level = 1)) ≤ 1 ∧
    (∀ row ∈ calculate_and_assign_dread_levels now c r,
      row.level = 0 ∨ row.level = 1 ∨ row.level = 2) ∧
    (∀ r1 ∈ calculate_and_assign_dread_levels now c r,
      ∀ r2 ∈ calculate_and_assign_dread_levels now c r,
        r1.level = 2 → r2.level = 1 → r1.area_id ≠ r2.area_id) ∧
    (∀ row ∈ calculate_and_assign_dread_levels now c r, row.level = 2 →
      ∃ e ∈ eligible_areas c, e.1 = row.area_id ∧
        ∀ e2 ∈ eligible_areas c, e2.2 ≤ e.2) ∧
    (∀ row ∈ calculate_and_assign_dread_levels now c r, row.level = 1 →
      ∃ e ∈ eligible_areas c, e.1 = row.area_id ∧
        (eligible_areas c).countP (fun x => decide (e.2 < x.2)) ≤ 1) ∧
    (eligible_areas c ≠ [] →
      ∃ row ∈ calculate_and_assign_dread_levels now c r, row.level = 2) ∧
    (2 ≤ (eligible_areas c).length →
      ∃ row ∈ calculate_and_assign_dread_levels now c r, row.level = 1) := by
  rcases hs : sorted_areas_by_deaths (eligible_areas c) with - | ⟨top, rest⟩
  · -- no eligible area: every row is reset to level 0
    have helig : eligible_areas c = [] := eligible_eq_nil_of_sorted_nil hs
    rw [calc_eq_reset helig]
    have hzero : ∀ row ∈ reset_all_dread_levels r, row.level = 0 :=
      fun row h => level_of_mem_reset h
    refine ⟨?_, ?_, ?_, ?_, ?_, ?_, ?_, ?_⟩
    · have : (reset_all_dread_levels r).countP
          (fun row => decide (row.level = 2)) = 0 := by
        rw [List.countP_eq_zero]
        intro row h
        simp [hzero row h]
      simp [this]
    · have : (reset_all_dread_levels r).countP
          (fun row => decide (row.level = 1)) = 0 := by
        rw [List.countP_eq_zero]
        intro row h
        simp [hzero row h]
      simp [this]
    · exact fun row h => Or.inl (hzero row h)
    · intro r1 h1 r2 h2 hl1 hl2
      rw [hzero r1 h1] at hl1
      cases hl1
    · intro row h hl
      rw [hzero row h] at hl
      cases hl
    · intro row h hl
      rw [hzero row h] at hl
      cases hl
    · intro h
      exact absurd helig h
    · intro h
      rw [helig] at h
      simp at h
  · rcases rest with - | ⟨second, rest2⟩
    · -- exactly one eligible area: only a level-2 assignment
      have htop_mem : top ∈ eligible_areas c :=
        mem_sorted_iff.mp (by rw [hs]; exact List.mem_cons_self top [])
      have hmax : ∀ e2 ∈ eligible_areas c, e2.2 ≤ top.2 := by
        intro e2 he2
        have : e2 ∈ sorted_areas_by_deaths (eligible_areas c) :=
          mem_sorted_iff.mpr he2
        rw [hs] at this
        rcases List.mem_singleton.mp this with rfl
        exact le_refl _
      have hcases : ∀ {row : DreadLevel},
          row ∈ calculate_and_assign_dread_levels now c r →
          (row.area_id = top.1 ∧ row.level = 2) ∨ row.level = 0 :=
        fun h => mem_calc_one_cases hs now r h
      have hnd : ((calculate_and_assign_dread_levels now c r).map
          DreadLevel.area_id).Nodup := by
        rw [calc_eq_one hs]
        exact nodup_map_area_update_or_create
          (by rw [map_area_reset]; exact hr) now top.1 2
      refine ⟨?_, ?_, ?_, ?_, ?_, ?_, ?_, ?_⟩
      · refine countP_le_one_of_area hnd _ top.1 ?_
        intro row hrow hp
        rcases hcases hrow with ⟨ha, _⟩ | hl
        · exact ha
        · rw [decide_eq_true_eq] at hp
          rw [hl] at hp
          cases hp
      · have : (calculate_and_assign_dread_levels now c r).countP
            (fun row => decide (row.level = 1)) = 0 := by
          rw [List.countP_eq_zero]
          intro row hrow
          rcases hcases hrow with ⟨_, hl⟩ | hl <;> simp [hl]
        simp [this]
      · intro row hrow
        rcases hcases hrow with ⟨_, hl⟩ | hl
        · exact Or.inr (Or.inr hl)
        · exact Or.inl hl
      · intro r1 h1 r2 h2 hl1 hl2
        rcases hcases h2 with ⟨_, hl⟩ | hl <;> rw [hl] at hl2 <;> cases hl2
      · intro row hrow hl
        rcases hcases hrow with ⟨ha, _⟩ | hzero
        · exact ⟨top, htop_mem, ha.symm, hmax⟩
        · rw [hzero] at hl
          cases hl
      · intro row hrow hl
        rcases hcases hrow with ⟨_, h2⟩ | hzero
        · rw [h2] at hl
          cases hl
        · rw [hzero] at hl
          cases hl
      · intro _
        refine ⟨⟨top.1, 2, now⟩, ?_, rfl⟩
        rw [calc_eq_one hs]
        exact self_mem_update_or_create now top.1 2 _
      · intro hlen
        have : (eligible_areas c).length = 1 := by
          have := (sorted_areas_perm (eligible_areas c)).length_eq
          rw [hs] at this
          exact this.symm
        omega
    · -- two or more eligible areas: a level-2 and a level-1 assignment
      have hsor := sorted_areas_sorted (eligible_areas c)
      rw [hs] at hsor
      have hnds : ((sorted_areas_by_deaths (eligible_areas c)).map Prod.fst).Nodup := by
        rw [((sorted_areas_perm (eligible_areas c)).map Prod.fst).nodup_iff]
        exact nodup_fst_eligible hc
      have hts : top.1 ≠ second.1 := by
        rw [hs, List.map_cons, List.map_cons, List.nodup_cons] at hnds
        intro h
        exact hnds.1 (by rw [h]; exact List.mem_cons_self _ _)
      have htop_mem : top ∈ eligible_areas c :=
        mem_sorted_iff.mp (by rw [hs]; exact List.mem_cons_self _ _)
      have hsecond_mem : second ∈ eligible_areas c :=
        mem_sorted_iff.mp (by rw [hs]; exact List.mem_cons_of_mem _ (List.mem_cons_self _ _))
      have hmax : ∀ e2 ∈ eligible_areas c, e2.2 ≤ top.2 := by
        intro e2 he2
        have hmem : e2 ∈ sorted_areas_by_deaths (eligible_areas c) :=
          mem_sorted_iff.mpr he2
        rw [hs] at hmem
        rcases List.mem_cons.mp hmem with rfl | hmem2
        · exact le_refl _
        · exact List.rel_of_sorted_cons hsor e2 hmem2
      have hsecond_count : (eligible_areas c).countP
          (fun x => decide (second.2 < x.2)) ≤ 1 := by
        have hperm := (sorted_areas_perm (eligible_areas c)).countP_eq
          (fun x => decide (second.2 < x.2))
        rw [← hperm, hs, List.countP_cons, List.countP_cons]
        have hrest : rest2.countP (fun x => decide (second.2 < x.2)) = 0 := by
          rw [List.countP_eq_zero]
          intro x hx
          have hle : x.2 ≤ second.2 := List.rel_of_sorted_cons hsor.of_cons x hx
          simp [not_lt.mpr hle]
        have hself : ¬ second.2 < second.2 := lt_irrefl _
        rw [hrest]
        simp [hself]
        split <;> omega
      have hcases : ∀ {row : DreadLevel},
          row ∈ calculate_and_assign_dread_levels now c r →
          (row.area_id = second.1 ∧ row.level = 1) ∨
            (row.area_id = top.1 ∧ row.level = 2) ∨ row.level = 0 :=
        fun h => mem_calc_two_cases hs now r h
      have hnd : ((calculate_and_assign_dread_levels now c r).map
          DreadLevel.area_id).Nodup := by
        rw [calc_eq_two hs]
        exact nodup_map_area_update_or_create
          (nodup_map_area_update_or_create
            (by rw [map_area_reset]; exact hr) now top.1 2) now second.1 1
      refine ⟨?_, ?_, ?_, ?_, ?_, ?_, ?_, ?_⟩
      · refine countP_le_one_of_area hnd _ top.1 ?_
        intro row hrow hp
        rw [decide_eq_true_eq] at hp
        rcases hcases hrow with ⟨_, hl⟩ | ⟨ha, _⟩ | hl
        · rw [hl] at hp; cases hp
        · exact ha
        · rw [hl] at hp; cases hp
      · refine countP_le_one_of_area hnd _ second.1 ?_
        intro row hrow hp
        rw [decide_eq_true_eq] at hp
        rcases hcases hrow with ⟨ha, _⟩ | ⟨_, hl⟩ | hl
        · exact ha
        · rw [hl] at hp; cases hp
        · rw [hl] at hp; cases hp
      · intro row hrow
        rcases hcases hrow with ⟨_, hl⟩ | ⟨_, hl⟩ | hl
        · exact Or.inr (Or.inl hl)
        · exact Or.inr (Or.inr hl)
        · exact Or.inl hl
      · intro r1 h1 r2 h2 hl1 hl2
        have ha1 : r1.area_id = top.1 := by
          rcases hcases h1 with ⟨_, hl⟩ | ⟨ha, _⟩ | hl
          · rw [hl] at hl1; cases hl1
          · exact ha
          · rw [hl] at hl1; cases hl1
        have ha2 : r2.area_id = second.1 := by
          rcases hcases h2 with ⟨ha, _⟩ | ⟨_, hl⟩ | hl
          · exact ha
          · rw [hl] at hl2; cases hl2
          · rw [hl] at hl2; cases hl2
        rw [ha1, ha2]
        exact hts
      · intro row hrow hl
        have ha : row.area_id = top.1 := by
          rcases hcases hrow with ⟨_, h2⟩ | ⟨ha, _⟩ | h2
          · rw [h2] at hl; cases hl
          · exact ha
          · rw [h2] at hl; cases hl
        exact ⟨top, htop_mem, ha.symm, hmax⟩
      · intro row hrow hl
        have ha : row.area_id = second.1 := by
          rcases hcases hrow with ⟨ha, _⟩ | ⟨_, h2⟩ | h2
          · exact ha
          · rw [h2] at hl; cases hl
          · rw [h2] at hl; cases hl
        exact ⟨second, hsecond_mem, ha.symm, hsecond_count⟩
      · intro _
        refine ⟨⟨top.1, 2, now⟩, ?_, rfl⟩
        rw [calc_eq_two hs]
        exact mem_update_or_create_of_ne
          (self_mem_update_or_create now top.1 2 _) hts
      · intro _
        refine ⟨⟨second.1, 1, now⟩, ?_, rfl⟩
        rw [calc_eq_two hs]
        exact self_mem_update_or_create now second.1 1 _

/-- Witness for C1 at the counter set {A:10, B:7, C:2} of §8 of the spec
and an empty Rank Store. -/
theorem dread_ranking_top_two_witness :
    ((([⟨"A", 10, 0⟩, ⟨"B", 7, 0⟩, ⟨"C", 2, 0⟩] : List AreaDeathCount).map
        AreaDeathCount.area_id).Nodup ∧
      (([] : List DreadLevel).map DreadLevel.area_id).Nodup) ∧
    (∀ row ∈ calculate_and_assign_dread_levels 5
        [⟨"A", 10, 0⟩, ⟨"B", 7, 0⟩, ⟨"C", 2, 0⟩] [],
      row.level = 0 ∨ row.level = 1 ∨ row.level = 2) :=
  ⟨⟨by decide, by decide⟩,
    (dread_ranking_top_two 5 [⟨"A", 10, 0⟩, ⟨"B", 7, 0⟩, ⟨"C", 2, 0⟩] []
      (by decide) (by decide)).2.2.1⟩

/-- C5.  When the Counter Store is empty or no counter reaches
`MIN_DEATHS_FOR_DREAD`, the ranking pass resets every existing Rank Store
row to level 0 and assigns no non-zero level: the result is exactly the
bulk reset of the previous Rank Store, every resulting row has level 0, and
the set of rows (by area) is unchanged. -/
theorem empty_or_ineligible_resets (now : ℚ) (c : List AreaDeathCount)
    (r : List DreadLevel) (h : c = [] ∨ eligible_areas c = []) :
    calculate_and_assign_dread_levels now c r = reset_all_dread_levels r ∧
    (∀ row ∈ calculate_and_assign_dread_levels now c r, row.level = 0) ∧
    (calculate_and_assign_dread_levels now c r).map DreadLevel.area_id =
      r.map DreadLevel.area_id := by
  have helig : eligible_areas c = [] := by
    rcases h with h | h
    · rw [h]; rfl
    · exact h
  refine ⟨calc_eq_reset helig now r, ?_, ?_⟩
  · intro row hrow
    rw [calc_eq_reset helig] at hrow
    exact level_of_mem_reset hrow
  · rw [calc_eq_reset helig, map_area_reset]

/-- Witness for C5: an empty Counter Store and a Rank Store holding a
level-2 row for area A. -/
theorem empty_or_ineligible_resets_witness :
    (([] : List AreaDeathCount) = [] ∨ eligible_areas [] = []) ∧
    (calculate_and_assign_dread_levels 3 [] [⟨"A", 2, 0⟩] =
        reset_all_dread_levels [⟨"A", 2, 0⟩] ∧
      (∀ row ∈ calculate_and_assign_dread_levels 3 [] [⟨"A", 2, 0⟩],
        row.level = 0) ∧
      (calculate_and_assign_dread_levels 3 [] [⟨"A", 2, 0⟩]).map
          DreadLevel.area_id =
        [⟨"A", 2, 0⟩].map DreadLevel.area_id) :=
  ⟨Or.inl rfl, empty_or_ineligible_resets 3 [] [⟨"A", 2, 0⟩] (Or.inl rfl)⟩

/-- C10.  The `/api/get_dread_level` endpoint answers HTTP 200 with
`dread_level = 0` for any area that has no Rank Store row. -/
theorem get_dread_level_absent (dread : List DreadLevel) (a : String)
    (h : a ∉ dread.map DreadLevel.area_id) :
    get_dread_level dread (some a) = (200, some (a, 0)) := by
  have hfind : dread.find? (fun r => r.area_id = a) = none := by
    rw [List.find?_eq_none]
    intro x hx
    simp only [decide_eq_true_eq]
    intro hxa
    exact h (hxa ▸ List.mem_map_of_mem DreadLevel.area_id hx)
  simp [get_dread_level, hfind]

/-- Witness for C10: a store holding only area B, queried for area X. -/
theorem get_dread_level_absent_witness :
    ("X" ∉ ([⟨"B", 2, 0⟩] : List DreadLevel).map DreadLevel.area_id) ∧
    get_dread_level [⟨"B", 2, 0⟩] (some "X") = (200, some ("X", 0)) :=
  ⟨by decide, get_dread_level_absent [⟨"B", 2, 0⟩] "X" (by decide)⟩

/-! ### Decay engine theorems -/

lemma decay_eq_filterMap (now : ℚ) (c : List AreaDeathCount) :
    decay_death_counts now c = c.filterMap (fun a =>
      if ((pyRound (a.death_count * DEATH_COUNT_DECAY_FACTOR) : ℤ) : ℚ) < 1 then none
      else some ⟨a.area_id, ((pyRound (a.death_count * DEATH_COUNT_DECAY_FACTOR) : ℤ) : ℚ), now⟩) := by
  by_cases hc : c = []
  · rw [hc]; rfl
  · simp [decay_death_counts, hc]

/-- C3.  One decay pass maps a counter of value V to
`round(V * DEATH_COUNT_DECAY_FACTOR)`: a record whose rounded value is below
1 disappears from the Counter Store (given unique area ids), a record whose
rounded value is at least 1 survives with exactly that value and
`last_updated = now`, and an empty Counter Store is left unchanged. -/
theorem decay_per_record (now : ℚ) (c : List AreaDeathCount)
    (hc : (c.map AreaDeathCount.area_id).Nodup) :
    decay_death_counts now [] = ([] : List AreaDeathCount) ∧
    ∀ rec ∈ c, ∀ v : ℚ,
      v = ((pyRound (rec.death_count * DEATH_COUNT_DECAY_FACTOR) : ℤ) : ℚ) →
      (v < 1 →
        rec.area_id ∉ (decay_death_counts now c).map AreaDeathCount.area_id) ∧
      (1 ≤ v →
        (⟨rec.area_id, v, now⟩ : AreaDeathCount) ∈ decay_death_counts now c) := by
  refine ⟨rfl, ?_⟩
  intro rec hrec v hv
  subst hv
  constructor
  · intro hlow hmem
    rw [decay_eq_filterMap, List.map_filterMap] at hmem
    simp only [List.mem_filterMap] at hmem
    rcases hmem with ⟨a, ha, hfa⟩
    by_cases halow : ((pyRound (a.death_count * DEATH_COUNT_DECAY_FACTOR) : ℤ) : ℚ) < 1
    · rw [if_pos halow, Option.map_none'] at hfa
      exact Option.noConfusion hfa
    · rw [if_neg halow] at hfa
      have haeq : a = rec :=
        List.inj_on_of_nodup_map hc ha hrec (Option.some.inj hfa)
      rw [haeq] at halow
      exact halow hlow
  · intro hhigh
    rw [decay_eq_filterMap]
    rw [List.mem_filterMap]
    exact ⟨rec, hrec, by rw [if_neg (not_lt.mpr hhigh)]⟩

/-- Witness for C3 at the counter values of §8 of the spec: a counter at 1
survives at value 1 (round(0.95) = 1) and a counter at 1/2 is deleted
(round(0.475) = 0). -/
theorem decay_per_record_witness :
    (([⟨"A", 1, 0⟩, ⟨"B", 1/2, 0⟩] : List AreaDeathCount).map
        AreaDeathCount.area_id).Nodup ∧
    ((⟨"A", 1, 7⟩ : AreaDeathCount) ∈
        decay_death_counts 7 [⟨"A", 1, 0⟩, ⟨"B", 1/2, 0⟩]) ∧
    ("B" ∉ (decay_death_counts 7 [⟨"A", 1, 0⟩, ⟨"B", 1/2, 0⟩]).map
        AreaDeathCount.area_id) := by
  refine ⟨by decide, ?_, ?_⟩
  · exact ((decay_per_record 7 [⟨"A", 1, 0⟩, ⟨"B", 1/2, 0⟩] (by decide)).2
      ⟨"A", 1, 0⟩ (by norm_num) 1
      (by norm_num [pyRound, DEATH_COUNT_DECAY_FACTOR])).2 (by norm_num)
  · exact ((decay_per_record 7 [⟨"A", 1, 0⟩, ⟨"B", 1/2, 0⟩] (by decide)).2
      ⟨"B", 1/2, 0⟩ (by norm_num) 0
      (by norm_num [pyRound, DEATH_COUNT_DECAY_FACTOR])).1 (by norm_num)

/-- C9.  After a decay pass every surviving counter row holds an
integer-valued `death_count` of at least 1, and a row whose rounded decayed
value is at least 1 is never deleted (its area survives the pass). -/
theorem decay_survivors_integral (now : ℚ) (c : List AreaDeathCount) :
    (∀ rec ∈ decay_death_counts now c,
      (∃ n : ℤ, rec.death_count = (n : ℚ)) ∧ 1 ≤ rec.death_count) ∧
    (∀ rec ∈ c,
      1 ≤ ((pyRound (rec.death_count * DEATH_COUNT_DECAY_FACTOR) : ℤ) : ℚ) →
        rec.area_id ∈ (decay_death_counts now c).map AreaDeathCount.area_id) := by
  constructor
  · intro rec hrec
    rw [decay_eq_filterMap, List.mem_filterMap] at hrec
    rcases hrec with ⟨a, _, hfa⟩
    by_cases halow : ((pyRound (a.death_count * DEATH_COUNT_DECAY_FACTOR) : ℤ) : ℚ) < 1
    · rw [if_pos halow] at hfa
      cases hfa
    · rw [if_neg halow] at hfa
      rcases Option.some.inj hfa with rfl
      exact ⟨⟨pyRound (a.death_count * DEATH_COUNT_DECAY_FACTOR), rfl⟩,
        not_lt.mp halow⟩
  · intro rec hrec hhigh
    rw [decay_eq_filterMap, List.map_filterMap]
    rw [List.mem_filterMap]
    refine ⟨rec, hrec, ?_⟩
    rw [if_neg (not_lt.mpr hhigh)]
    rfl

/-- Evaluation of one decay pass on the single counter A with value 2:
round(2 * 0.95) = round(1.9) = 2, so the row survives at value 2. -/
lemma decay_eval_two : decay_death_counts 7 [⟨"A", 2, 0⟩] = [⟨"A", 2, 7⟩] := by
  have h1 : (⟨"A", 2, 0⟩ : AreaDeathCount).death_count * DEATH_COUNT_DECAY_FACTOR
      = (19/10 : ℚ) := by
    norm_num [DEATH_COUNT_DECAY_FACTOR]
  have hf : ⌊(19/10 : ℚ)⌋ = 1 := by norm_num
  have h2 : pyRound (19/10 : ℚ) = 2 := by
    simp only [pyRound, hf]
    norm_num
  rw [decay_eq_filterMap]
  simp only [List.filterMap_cons, List.filterMap_nil, h1, h2]
  norm_num

/-- Witness for C9 at a counter of value 2 (round(1.9) = 2 survives). -/
theorem decay_survivors_integral_witness :
    ((∃ n : ℤ, ((2 : ℚ)) = (n : ℚ)) ∧ (1 : ℚ) ≤ 2) ∧
    ("A" ∈ (decay_death_counts 7 [⟨"A", 2, 0⟩]).map AreaDeathCount.area_id) :=
  ⟨by
    have h := (decay_survivors_integral 7 [⟨"A", 2, 0⟩]).1 ⟨"A", 2, 7⟩
      (by rw [decay_eval_two]; exact List.mem_singleton.mpr rfl)
    simpa using h,
   (decay_survivors_integral 7 [⟨"A", 2, 0⟩]).2 ⟨"A", 2, 0⟩
     (List.mem_singleton.mpr rfl)
     (by norm_num [pyRound, DEATH_COUNT_DECAY_FACTOR])⟩

/-! ### Error-propagation theorems -/

/-- Counterexample to C2: an `IntegrityError` raised during either engine
pass is rolled back but NOT propagated to the caller — both engines return
as if the pass had succeeded, contradicting the claim that every unexpected
error propagates and that the engines never swallow a failure. -/
theorem engines_swallow_integrity :
    (run_decay_death_counts (some DbError.integrity) 0 [⟨"A", 5, 0⟩]).2 = none ∧
    (run_calculate_and_assign (some DbError.integrity) 0 [⟨"A", 5, 0⟩] []).2 = none ∧
    (run_decay_death_counts (some DbError.integrity) 0 [⟨"A", 5, 0⟩]).2 ≠
      some DbError.integrity ∧
    (run_calculate_and_assign (some DbError.integrity) 0 [⟨"A", 5, 0⟩] []).2 ≠
      some DbError.integrity :=
  ⟨rfl, rfl, by decide, by decide⟩

/-- C2 as amended.  Any fault during a pass rolls the whole pass back (the
store is unchanged); a non-`IntegrityError` fault propagates to the caller,
while an `IntegrityError` is logged and swallowed (no error reaches the
caller). -/
theorem engine_error_policy (fault : DbError) (now : ℚ)
    (c : List AreaDeathCount) (r : List DreadLevel) :
    (run_decay_death_counts (some fault) now c).1 = c ∧
    (run_calculate_and_assign (some fault) now c r).1 = r ∧
    (fault ≠ DbError.integrity →
      (run_decay_death_counts (some fault) now c).2 = some fault ∧
      (run_calculate_and_assign (some fault) now c r).2 = some fault) ∧
    (fault = DbError.integrity →
      (run_decay_death_counts (some fault) now c).2 = none ∧
      (run_calculate_and_assign (some fault) now c r).2 = none) := by
  cases fault <;>
    simp [run_decay_death_counts, run_calculate_and_assign]

/-- Witness for C2 (amended) at a non-integrity fault on concrete stores. -/
theorem engine_error_policy_witness :
    (DbError.other ≠ DbError.integrity) ∧
    (run_decay_death_counts (some DbError.other) 0 [⟨"A", 5, 0⟩]).2 =
      some DbError.other ∧
    (run_calculate_and_assign (some DbError.other) 0 [⟨"A", 5, 0⟩] []).2 =
      some DbError.other :=
  ⟨by decide,
    (engine_error_policy DbError.other 0 [⟨"A", 5, 0⟩] []).2.2.1 (by decide)⟩

/-! ### Idempotence of the ranking pass -/

/-- A second ranking pass over an unchanged Counter Store rewrites the Rank
Store to exactly what a single pass (at the second pass's clock) produces. -/
lemma calc_absorb (t1 t2 : ℚ) (c : List AreaDeathCount) (r : List DreadLevel) :
    calculate_and_assign_dread_levels t2 c
        (calculate_and_assign_dread_levels t1 c r) =
      calculate_and_assign_dread_levels t2 c r := by
  rcases hs : sorted_areas_by_deaths (eligible_areas c) with - | ⟨top, rest⟩
  · have helig := eligible_eq_nil_of_sorted_nil hs
    simp only [calc_eq_reset helig, reset_reset]
  · rcases rest with - | ⟨second, rest2⟩
    · simp only [calc_eq_one hs, reset_update_or_create, reset_reset,
        update_or_create_absorb]
    · simp only [calc_eq_two hs, reset_update_or_create, reset_reset]
      by_cases hts : top.1 = second.1
      · rw [hts]
        simp only [update_or_create_absorb]
      · have hmem := List.mem_map_of_mem DreadLevel.area_id
          (self_mem_update_or_create t1 top.1 0 (reset_all_dread_levels r))
        rw [update_or_create_comm hts hmem t2 t1 2 0,
          update_or_create_absorb, update_or_create_absorb]

/-- C6.  Running the ranking pass twice in a row over an unchanged Counter
Store leaves the Rank Store identical to the state after the first pass
(first conjunct, both passes at the same clock), and more generally a
repeated pass at any later clock equals a single pass at that clock. -/
theorem recompute_idempotent (now t2 : ℚ) (c : List AreaDeathCount)
    (r : List DreadLevel) :
    calculate_and_assign_dread_levels now c
        (calculate_and_assign_dread_levels now c r) =
      calculate_and_assign_dread_levels now c r ∧
    calculate_and_assign_dread_levels t2 c
        (calculate_and_assign_dread_levels now c r) =
      calculate_and_assign_dread_levels t2 c r :=
  ⟨calc_absorb now now c r, calc_absorb now t2 c r⟩

/-! ### Scheduler theorems -/

/-- C4.  In a loop iteration with both intervals elapsed and no engine
fault, the decay-triggered chain runs exactly one decay pass followed by one
ranking pass and resets both instants to the after-work clock; with only the
ranking interval elapsed, ranking runs alone and only the ranking instant is
reset. -/
theorem scheduler_priority (st : SchedState) (tCheck tAfter : ℚ) :
    (DECAY_INTERVAL_SECONDS ≤ tCheck - st.lastDecay →
      DREAD_CALCULATION_INTERVAL_SECONDS ≤ tCheck - st.lastRank →
      (loop_iteration st tCheck tAfter none none).2 =
        [PassKind.decay, PassKind.ranking] ∧
      (loop_iteration st tCheck tAfter none none).1.lastDecay = tAfter ∧
      (loop_iteration st tCheck tAfter none none).1.lastRank = tAfter) ∧
    (¬ DECAY_INTERVAL_SECONDS ≤ tCheck - st.lastDecay →
      DREAD_CALCULATION_INTERVAL_SECONDS ≤ tCheck - st.lastRank →
      (loop_iteration st tCheck tAfter none none).2 = [PassKind.ranking] ∧
      (loop_iteration st tCheck tAfter none none).1.lastDecay = st.lastDecay ∧
      (loop_iteration st tCheck tAfter none none).1.lastRank = tAfter) := by
  constructor
  · intro hd _
    simp [loop_iteration, hd, run_decay_death_counts, run_calculate_and_assign]
  · intro hd hr
    simp [loop_iteration, hd, hr, run_decay_death_counts,
      run_calculate_and_assign]

/-- Witness for C4: with both timers due the chain runs once; with only the
ranking timer due, ranking runs alone. -/
theorem scheduler_priority_witness :
    ((loop_iteration ⟨0, 0, [], []⟩ 3600 3601 none none).2 =
        [PassKind.decay, PassKind.ranking] ∧
      (loop_iteration ⟨0, 0, [], []⟩ 3600 3601 none none).1.lastDecay = 3601 ∧
      (loop_iteration ⟨0, 0, [], []⟩ 3600 3601 none none).1.lastRank = 3601) ∧
    ((loop_iteration ⟨3596, 0, [], []⟩ 3600 3601 none none).2 =
        [PassKind.ranking] ∧
      (loop_iteration ⟨3596, 0, [], []⟩ 3600 3601 none none).1.lastDecay = 3596 ∧
      (loop_iteration ⟨3596, 0, [], []⟩ 3600 3601 none none).1.lastRank = 3601) :=
  ⟨(scheduler_priority ⟨0, 0, [], []⟩ 3600 3601).1
      (by norm_num [DECAY_INTERVAL_SECONDS])
      (by norm_num [DREAD_CALCULATION_INTERVAL_SECONDS]),
    (scheduler_priority ⟨3596, 0, [], []⟩ 3600 3601).2
      (by norm_num [DECAY_INTERVAL_SECONDS])
      (by norm_num [DREAD_CALCULATION_INTERVAL_SECONDS])⟩

/-- Counterexample to C7: the bootstrap of `run_periodic_tasks` starts the
ranking pass first and the decay pass second, not decay-then-ranking as
claimed. -/
theorem init_order_counterexample :
    (run_periodic_tasks_init 0 none none [] []).2 ≠
      [PassKind.decay, PassKind.ranking] := by
  decide

/-- C7 as amended.  Before the loop, the scheduler performs one
unconditional bootstrap run of ranking followed by decay (in that order),
initializes both last-run instants to the start time, and swallows any
fault of either bootstrap call (on a fault the corresponding store is left
unchanged and startup proceeds). -/
theorem init_ranking_then_decay (t0 : ℚ) (rf df : Option DbError)
    (c : List AreaDeathCount) (r : List DreadLevel) :
    (run_periodic_tasks_init t0 rf df c r).2 =
      [PassKind.ranking, PassKind.decay] ∧
    (run_periodic_tasks_init t0 rf df c r).1.lastDecay = t0 ∧
    (run_periodic_tasks_init t0 rf df c r).1.lastRank = t0 ∧
    (rf = none → (run_periodic_tasks_init t0 rf df c r).1.ranks =
      calculate_and_assign_dread_levels t0 c r) ∧
    (rf ≠ none → (run_periodic_tasks_init t0 rf df c r).1.ranks = r) ∧
    (df = none → (run_periodic_tasks_init t0 rf df c r).1.counters =
      decay_death_counts t0 c) ∧
    (df ≠ none → (run_periodic_tasks_init t0 rf df c r).1.counters = c) := by
  refine ⟨rfl, rfl, rfl, ?_, ?_, ?_, ?_⟩
  · intro h
    subst h
    rfl
  · intro h
    rcases rf with - | e
    · exact absurd rfl h
    · cases e <;> rfl
  · intro h
    subst h
    rfl
  · intro h
    rcases df with - | e
    · exact absurd rfl h
    · cases e <;> rfl

/-- Witness for C7 (amended): a faulting bootstrap ranking call leaves the
Rank Store unchanged while the decay call still runs, with the trace
ranking-then-decay. -/
theorem init_ranking_then_decay_witness :
    (some DbError.other ≠ (none : Option DbError)) ∧
    (run_periodic_tasks_init 0 (some DbError.other) none
        [⟨"A", 1, 0⟩] [⟨"B", 1, 0⟩]).2 = [PassKind.ranking, PassKind.decay] ∧
    (run_periodic_tasks_init 0 (some DbError.other) none
        [⟨"A", 1, 0⟩] [⟨"B", 1, 0⟩]).1.ranks = [⟨"B", 1, 0⟩] ∧
    (run_periodic_tasks_init 0 (some DbError.other) none
        [⟨"A", 1, 0⟩] [⟨"B", 1, 0⟩]).1.counters =
      decay_death_counts 0 [⟨"A", 1, 0⟩] := by
  have h := init_ranking_then_decay 0 (some DbError.other) none
    [⟨"A", 1, 0⟩] [⟨"B", 1, 0⟩]
  exact ⟨by decide, h.1, h.2.2.2.2.1 (by decide), h.2.2.2.2.2.1 rfl⟩

/-- Counterexample to C8: a decay pass failing at time 3600 leaves the
scheduler state (in particular `last_decay_time`) unchanged, so at the very
next poll, 5 seconds later and far less than one decay interval after the
failed attempt, the decay chain runs again. -/
theorem failed_pass_reruns_at_next_poll :
    (loop_iteration ⟨0, 0, [⟨"A", 5, 0⟩], []⟩ 3600 3600
        (some DbError.other) none).1 = ⟨0, 0, [⟨"A", 5, 0⟩], []⟩ ∧
    (loop_iteration ⟨0, 0, [⟨"A", 5, 0⟩], []⟩ 3600 3600
        (some DbError.other) none).2 = [PassKind.decay] ∧
    (3605 : ℚ) - 3600 < DECAY_INTERVAL_SECONDS ∧
    (loop_iteration ⟨0, 0, [⟨"A", 5, 0⟩], []⟩ 3605 3605 none none).2 =
      [PassKind.decay, PassKind.ranking] := by
  refine ⟨?_, ?_, by norm_num [DECAY_INTERVAL_SECONDS], ?_⟩
  · norm_num [loop_iteration, run_decay_death_counts, DECAY_INTERVAL_SECONDS]
  · norm_num [loop_iteration, run_decay_death_counts, DECAY_INTERVAL_SECONDS]
  · norm_num [loop_iteration, run_decay_death_counts,
      run_calculate_and_assign, DECAY_INTERVAL_SECONDS]

/-- C8 as amended.  A pass failing with a propagated exception leaves the
scheduler state untouched (stores rolled back, both instants unchanged), so
the failed work is retried at any subsequent poll at which the original
interval condition still holds — in particular at the very next poll — and
not first after one further full interval. -/
theorem failed_pass_retry_next_poll (st : SchedState) (t t2 u u2 : ℚ) :
    (DECAY_INTERVAL_SECONDS ≤ t - st.lastDecay →
      (loop_iteration st t t2 (some DbError.other) none).1 = st ∧
      (loop_iteration st t t2 (some DbError.other) none).2 = [PassKind.decay] ∧
      (DECAY_INTERVAL_SECONDS ≤ u - st.lastDecay →
        (loop_iteration st u u2 none none).2 =
          [PassKind.decay, PassKind.ranking])) ∧
    (¬ DECAY_INTERVAL_SECONDS ≤ t - st.lastDecay →
      DREAD_CALCULATION_INTERVAL_SECONDS ≤ t - st.lastRank →
      (loop_iteration st t t2 none (some DbError.other)).1 = st ∧
      (loop_iteration st t t2 none (some DbError.other)).2 = [PassKind.ranking] ∧
      (¬ DECAY_INTERVAL_SECONDS ≤ u - st.lastDecay →
        DREAD_CALCULATION_INTERVAL_SECONDS ≤ u - st.lastRank →
        (loop_iteration st u u2 none none).2 = [PassKind.ranking])) := by
  constructor
  · intro hd
    refine ⟨?_, ?_, ?_⟩
    · simp [loop_iteration, hd, run_decay_death_counts]
    · simp [loop_iteration, hd, run_decay_death_counts]
    · intro hu
      simp [loop_iteration, hu, run_decay_death_counts,
        run_calculate_and_assign]
  · intro hd hr
    refine ⟨?_, ?_, ?_⟩
    · simp [loop_iteration, hd, hr, run_calculate_and_assign]
    · simp [loop_iteration, hd, hr, run_calculate_and_assign]
    · intro hu hur
      simp [loop_iteration, hu, hur, run_decay_death_counts,
        run_calculate_and_assign]

/-- Witness for C8 (amended) on concrete scheduler states. -/
theorem failed_pass_retry_next_poll_witness :
    ((loop_iteration ⟨0, 0, [], []⟩ 3600 3600 (some DbError.other) none).1 =
        (⟨0, 0, [], []⟩ : SchedState) ∧
      (loop_iteration ⟨0, 0, [], []⟩ 3600 3600 (some DbError.other) none).2 =
        [PassKind.decay] ∧
      (loop_iteration ⟨0, 0, [], []⟩ 3605 3605 none none).2 =
        [PassKind.decay, PassKind.ranking]) ∧
    ((loop_iteration ⟨3596, 0, [], []⟩ 3600 3600 none (some DbError.other)).1 =
        (⟨3596, 0, [], []⟩ : SchedState) ∧
      (loop_iteration ⟨3596, 0, [], []⟩ 3600 3600 none (some DbError.other)).2 =
        [PassKind.ranking] ∧
      (loop_iteration ⟨3596, 0, [], []⟩ 3605 3605 none none).2 =
        [PassKind.ranking]) := by
  have h1 := (failed_pass_retry_next_poll ⟨0, 0, [], []⟩ 3600 3600 3605 3605).1
    (by norm_num [DECAY_INTERVAL_SECONDS])
  have h2 := (failed_pass_retry_next_poll ⟨3596, 0, [], []⟩ 3600 3600 3605 3605).2
    (by norm_num [DECAY_INTERVAL_SECONDS])
    (by norm_num [DREAD_CALCULATION_INTERVAL_SECONDS])
  exact ⟨⟨h1.1, h1.2.1, h1.2.2 (by norm_num [DECAY_INTERVAL_SECONDS])⟩,
    ⟨h2.1, h2.2.1, h2.2.2 (by norm_num [DECAY_INTERVAL_SECONDS])
      (by norm_num [DREAD_CALCULATION_INTERVAL_SECONDS])⟩⟩

end Arid
